import Mathlib

set_option maxRecDepth 4000

/-! Verification of the request-composition core of a SharePoint REST client
(`packages/sp/src/sharepointqueryable.ts`): path and parent-URL derivation,
the query-parameter accumulator with aliased-parameter rewriting, and the
request-context builder. Helpers imported from sibling packages of the same
repository (`@pnp/common`, `@pnp/odata`, `SPBatch`) are not part of the given
sources; those are modelled from the specification, as marked on each
definition. -/

/-- Index of the last occurrence of a character in a character list. -/
def lastIndexAux : List Char → Char → Option Nat
  | [], _ => none
  | x :: xs, c =>
    match lastIndexAux xs c with
    | some i => some (i + 1)
    | none => if x == c then some 0 else none

/-- JavaScript `s.lastIndexOf(c)`: index of the last occurrence, `-1` when absent. -/
def lastIndexOfChar (s : String) (c : Char) : Int :=
  match lastIndexAux s.toList c with
  | some i => (i : Int)
  | none => -1

/-- JavaScript `s.slice(0, n)`. -/
def strTake (s : String) (n : Nat) : String := String.mk (s.toList.take n)

/-- JavaScript `s.slice(n)`. -/
def strDrop (s : String) (n : Nat) : String := String.mk (s.toList.drop n)

/-- Modelled from the spec: the ordered, key-unique query accumulator
(`Dictionary` of the repository package `@pnp/common`, not under `src/`):
insertion order of keys is preserved and `add` overwrites the value of an
existing key in place. -/
structure Dictionary where
  entries : List (String × String)
deriving DecidableEq, Repr

/-- Modelled from the spec: a fresh accumulator is empty. -/
def Dictionary.empty : Dictionary := ⟨[]⟩

/-- Overwrite the value of `k` in place, or append a new entry. -/
def addEntries : List (String × String) → String → String → List (String × String)
  | [], k, v => [(k, v)]
  | kv :: t, k, v => if kv.1 == k then (k, v) :: t else kv :: addEntries t k v

/-- Modelled from the spec: `add(key, value)` overwrites any existing value for
`key`, preserving the key's first-seen position. -/
def Dictionary.add (d : Dictionary) (k v : String) : Dictionary := ⟨addEntries d.entries k v⟩

/-- Modelled from the spec: `get(key)` returns the stored value or null. -/
def Dictionary.get (d : Dictionary) (k : String) : Option String :=
  (d.entries.find? (fun kv => kv.1 == k)).map Prod.snd

/-- Modelled from the spec: `getKeys()` returns the keys in insertion order. -/
def Dictionary.getKeys (d : Dictionary) : List String := d.entries.map Prod.fst

/-- Modelled from the spec: `count` of stored entries. -/
def Dictionary.count (d : Dictionary) : Nat := d.entries.length

/-- Modelled from the spec: `merge(other)` copies all entries from `other` into
`this`, overwriting on key collision, leaving `other` unmodified. -/
def Dictionary.merge (d other : Dictionary) : Dictionary :=
  other.entries.foldl (fun a kv => a.add kv.1 kv.2) d

/-- Drop leading path separators of a segment. -/
def trimLeadSlash (s : String) : String :=
  String.mk (s.toList.dropWhile (fun c => c == '/'))

/-- Drop trailing path separators of a segment. -/
def trimTrailSlash (s : String) : String :=
  String.mk ((s.toList.reverse.dropWhile (fun c => c == '/')).reverse)

/-- Modelled from the spec: `combinePaths(a, b)` of the repository package
`@pnp/common` (not under `src/`) concatenates two path segments ensuring
exactly one separator between them and ignoring an empty or absent `b`. -/
def combinePaths (a : String) (b : Option String) : String :=
  match b with
  | none => a
  | some s =>
    if s = "" then a
    else if a = "" then s
    else trimTrailSlash a ++ "/" ++ trimLeadSlash s

/-- Modelled from the spec: `isUrlAbsolute` of the repository package
`@pnp/common` (not under `src/`): a URL is absolute when it carries a scheme
or a protocol-relative host. -/
def isUrlAbsolute (s : String) : Bool :=
  "https://".toList.isPrefixOf s.toList || "http://".toList.isPrefixOf s.toList ||
    "//".toList.isPrefixOf s.toList

/-- Modelled from the spec: a batch handle (`SPBatch`, repository code not
under `src/`) exposing dependency registration; `nextTok` identifies the
release callback the next registration hands back. -/
structure SPBatch where
  bid : Nat
  nextTok : Nat
deriving DecidableEq, Repr

/-- State of a `SharePointQueryable` node: own URL, parent URL, the query
accumulator, the option overlay, the caching flag and directive, and the batch
association (the state fields come from `ODataQueryable`, modelled from the
spec). -/
structure SharePointQueryable where
  _url : String
  _parentUrl : String
  _query : Dictionary
  _options : Dictionary
  _useCaching : Bool
  _cachingOptions : Option String
  _batch : Option SPBatch
deriving DecidableEq, Repr

namespace SharePointQueryable

/-- Modelled from the spec: the state a fresh node starts from (the
`ODataQueryable` super-constructor, repository code not under `src/`): empty
accumulator and options, no caching, no batch. -/
def fresh : SharePointQueryable :=
  { _url := "", _parentUrl := "", _query := Dictionary.empty,
    _options := Dictionary.empty, _useCaching := false,
    _cachingOptions := none, _batch := none }

/-- Modelled from the spec: `configure` merges the supplied options into the
node (`ODataQueryable`, repository code not under `src/`), supplied values
overwriting on collision. -/
def configure (q : SharePointQueryable) (o : Dictionary) : SharePointQueryable :=
  { q with _options := q._options.merge o }

/-- Modelled from the spec: `inBatch` re-attaches a batch handle
(`ODataQueryable`, repository code not under `src/`). -/
def inBatch (q : SharePointQueryable) (b : Option SPBatch) : SharePointQueryable :=
  { q with _batch := b }

/-- Modelled from the spec: `hasBatch` is true when a batch handle is attached. -/
def hasBatch (q : SharePointQueryable) : Bool := q._batch.isSome

/-- Modelled from the spec: `toUrl` returns the composed URL text
(`ODataQueryable`, repository code not under `src/`). -/
def toUrl (q : SharePointQueryable) : String := q._url

/-- The string branch of the `SharePointQueryable` constructor
(`sharepointqueryable.ts` lines 40-58): absolute or separator-free bases keep
`baseUrl` as parent; otherwise the position of the last `/` is compared with
the position of the last `(` to split off the parent URL. -/
def ofString (baseUrl : String) (path : Option String) : SharePointQueryable :=
  if isUrlAbsolute baseUrl || lastIndexOfChar baseUrl '/' < 0 then
    { fresh with _parentUrl := baseUrl, _url := combinePaths baseUrl path }
  else if lastIndexOfChar baseUrl '(' < lastIndexOfChar baseUrl '/' then
    let index := (lastIndexOfChar baseUrl '/').toNat
    let parentUrl := strTake baseUrl index
    let path2 := combinePaths (strDrop baseUrl index) path
    { fresh with
      _parentUrl := parentUrl,
      _url := combinePaths parentUrl (some path2) }
  else
    let index := (lastIndexOfChar baseUrl '(').toNat
    { fresh with
      _parentUrl := strTake baseUrl index,
      _url := combinePaths baseUrl path }

/-- Modelled from the spec: deriving from an existing node (`extend` on
`ODataQueryable`, repository code not under `src/`): the base node's `url`
becomes the new base, `query` and `options` are copied by value, and the
batch association is not silently inherited. -/
def extendNode (base : SharePointQueryable) (path : Option String) : SharePointQueryable :=
  { fresh with
    _parentUrl := base._url, _url := combinePaths base._url path,
    _query := base._query, _options := base._options }

/-- The queryable branch of the `SharePointQueryable` constructor
(`sharepointqueryable.ts` lines 59-65): extend from the base node, then copy
the `@target` query entry when present. -/
def ofQueryable (base : SharePointQueryable) (path : Option String) : SharePointQueryable :=
  let q := extendNode base path
  match base._query.get "@target" with
  | some t => { q with _query := q._query.add "@target" t }
  | none => q

end SharePointQueryable

/-- Split a character list at the first occurrence of the two-character
separator `::`, not crossing a newline (the lazily matched `.` of the rewrite
pattern does not match newlines). -/
def splitColons : List Char → Option (List Char × List Char)
  | [] => none
  | ':' :: ':' :: rest => some ([], rest)
  | '\n' :: _ => none
  | c :: rest => (splitColons rest).map (fun p => (c :: p.1, p.2))

/-- Split a character list at the first closing single quote, not crossing a
newline. -/
def splitQuote : List Char → Option (List Char × List Char)
  | [] => none
  | '\'' :: rest => some ([], rest)
  | '\n' :: _ => none
  | c :: rest => (splitQuote rest).map (fun p => (c :: p.1, p.2))

/-- Attempt to match the aliased-parameter pattern at the head of the list: an
opening quote, `!`, a label beginning with `@` lazily extended to the first
`::`, and a lazily extended value closed by a quote (the rewrite pattern of
`toUrlAndQuery`, `sharepointqueryable.ts` line 86). On success, return the
label with its leading `@`, the raw value, and the remainder after the
closing quote. -/
def matchAliasAt : List Char → Option (List Char × List Char × List Char)
  | '\'' :: '!' :: '@' :: rest =>
    match splitColons rest with
    | none => none
    | some (lab, r1) =>
      match splitQuote r1 with
      | none => none
      | some (v, r2) => some ('@' :: lab, v, r2)
  | _ => none

/-- One pass of the global replace of the aliased-parameter pattern: scan left
to right, rewriting every match to its bare label and collecting each
`(label, value wrapped in single quotes)` pair in match order. `fuel` bounds
the recursion; the length of the list always suffices since every step
consumes at least one character. -/
def scanAliases : Nat → List Char → List Char × List (String × String)
  | 0, l => (l, [])
  | fuel + 1, l =>
    match matchAliasAt l with
    | some (lab, v, rest) =>
      let r := scanAliases fuel rest
      (lab ++ r.1, (String.mk lab, "\x27" ++ String.mk v ++ "\x27") :: r.2)
    | none =>
      match l with
      | [] => ([], [])
      | c :: t =>
        let r := scanAliases fuel t
        (c :: r.1, r.2)

namespace SharePointQueryable

/-- `toUrlAndQuery` (`sharepointqueryable.ts` lines 82-100): rewrite aliased
parameters of the composed URL into a fresh local dictionary, merge the
node's own query entries over it, and append the serialized `key=value` pairs
after a single `?` when at least one exists. -/
def toUrlAndQuery (q : SharePointQueryable) : String :=
  let scanned := scanAliases (toUrl q).toList.length (toUrl q).toList
  let aliasedParams := scanned.2.foldl (fun d kv => d.add kv.1 kv.2) Dictionary.empty
  let merged := aliasedParams.merge q._query
  let url := String.mk scanned.1
  if merged.count > 0 then
    url ++ "?" ++
      String.intercalate "&" (merged.getKeys.map (fun k => k ++ "=" ++ (merged.get k).getD "null"))
  else url

/-- `toUrlAndQuery` with the post-call node state made explicit: the source
(lines 82-100) only reads the node, writing to a local dictionary, so the
node after the call is the node before it. -/
def toUrlAndQueryRun (q : SharePointQueryable) : String × SharePointQueryable :=
  (toUrlAndQuery q, q)

/-- `as` (`sharepointqueryable.ts` lines 73-76): construct a new node from the
current `_url`, then `extend(o, this, true)`. The `extend` utility lives in
the repository package `@pnp/common` (not under `src/`); modelled from the
spec, which describes the cast as reinterpreting a snapshot of the current
URL/query state as another resource type: the node state is carried onto the
new instance. -/
def asCast (q : SharePointQueryable) : SharePointQueryable :=
  let o := ofString q._url none
  { o with
    _url := q._url, _parentUrl := q._parentUrl, _query := q._query,
    _options := q._options, _useCaching := q._useCaching,
    _cachingOptions := q._cachingOptions, _batch := q._batch }

/-- `getParent` (`sharepointqueryable.ts` lines 107-124): build the parent
from a base URL (the caller passes this node's `parentUrl` by default),
configure it with this node's options, copy the `@target` query entry when
present, and re-attach a batch when one is supplied. -/
def getParent (q : SharePointQueryable) (baseUrl : String) (path : Option String)
    (batch : Option SPBatch) : SharePointQueryable :=
  let parent := ofString baseUrl path
  let parent := parent.configure q._options
  let parent :=
    match q._query.get "@target" with
    | some t => { parent with _query := parent._query.add "@target" t }
    | none => parent
  match batch with
  | some b => parent.inBatch (some b)
  | none => parent

/-- `clone` (`sharepointqueryable.ts` lines 132-143): construct from this node
through the queryable constructor branch, configure with this node's options,
copy the `@target` entry when present, and re-attach this node's batch when
requested. -/
def clone (q : SharePointQueryable) (additionalPath : Option String)
    (includeBatch : Bool) : SharePointQueryable :=
  let c := ofQueryable q additionalPath
  let c := c.configure q._options
  let c :=
    match q._query.get "@target" with
    | some t => { c with _query := c._query.add "@target" t }
    | none => c
  if includeBatch && q.hasBatch then c.inBatch q._batch else c

end SharePointQueryable

/-- A batch dependency release callback: the no-op used for unbatched nodes,
or the callback obtained from registration `tok` on the batch. -/
inductive Release where
  | noop : Release
  | fromBatch (tok : Nat) : Release
deriving DecidableEq, Repr

/-- Observable steps of `toRequestContext`, listed in execution order: a batch
dependency registration, and the resolution of the absolute URL. -/
inductive BuildEv where
  | register (tok : Nat) : BuildEv
  | resolve (url : String) : BuildEv
deriving DecidableEq, Repr

/-- The request descriptor assembled by `toRequestContext`
(`sharepointqueryable.ts` lines 166-179); the parser, the pipeline and the
client factory are opaque handles here. -/
structure RequestContext where
  batch : Option SPBatch
  batchDependency : Release
  cachingOptions : Option String
  isBatched : Bool
  isCached : Bool
  options : Dictionary
  parser : Nat
  pipeline : Nat
  requestAbsoluteUrl : String
  requestId : String
  verb : String
deriving DecidableEq, Repr

/-- ASCII lowercasing of a string, character by character. -/
def lowerAscii (s : String) : String := String.mk (s.toList.map Char.toLower)

/-- The whole-string case-insensitive test of the verb against `get`
(`sharepointqueryable.ts` line 172). -/
def isGetVerb (verb : String) : Bool := lowerAscii verb == "get"

/-- `toRequestContext` (`sharepointqueryable.ts` lines 153-183): when the node
is batched, register a batch dependency first (the release callback is the
registration result; otherwise it is the no-op), then resolve the absolute
form of `toUrlAndQuery`, merge the node options over the supplied options,
and assemble the descriptor. The absolute-URL resolver (`toAbsoluteUrl`,
repository code not under `src/`) is passed as a function, `guid` stands for
the freshly generated correlation identifier, and the returned event list
records the execution order of the two effects. -/
def SharePointQueryable.toRequestContext (q : SharePointQueryable) (verb : String)
    (options : Dictionary) (parser pipeline : Nat) (resolver : String → String)
    (guid : String) : List BuildEv × RequestContext :=
  let reg : Release × List BuildEv :=
    match q._batch with
    | some b => (Release.fromBatch b.nextTok, [BuildEv.register b.nextTok])
    | none => (Release.noop, [])
  let url := resolver (toUrlAndQuery q)
  let mergedOptions := options.merge q._options
  (reg.2 ++ [BuildEv.resolve url],
   { batch := q._batch, batchDependency := reg.1,
     cachingOptions := q._cachingOptions, isBatched := q.hasBatch,
     isCached := isGetVerb verb && q._useCaching, options := mergedOptions,
     parser := parser, pipeline := pipeline, requestAbsoluteUrl := url,
     requestId := guid, verb := verb })

/-- `filter` (`sharepointqueryable.ts` lines 197-200). -/
def SharePointQueryableCollection.filter (q : SharePointQueryable) (f : String) :
    SharePointQueryable :=
  { q with _query := q._query.add "$filter" f }

/-- `select` on collections (`sharepointqueryable.ts` lines 207-212): a no-op
when no field is supplied. -/
def SharePointQueryableCollection.select (q : SharePointQueryable) (selects : List String) :
    SharePointQueryable :=
  if selects.length > 0 then
    { q with _query := q._query.add "$select" (String.intercalate "," selects) }
  else q

/-- `expand` on collections (`sharepointqueryable.ts` lines 219-224): a no-op
when no field is supplied. -/
def SharePointQueryableCollection.expand (q : SharePointQueryable) (expands : List String) :
    SharePointQueryable :=
  if expands.length > 0 then
    { q with _query := q._query.add "$expand" (String.intercalate "," expands) }
  else q

/-- `orderBy` (`sharepointqueryable.ts` lines 232-237): read any current
`$orderby` values, append the new clause, and store the comma-joined result
back under `$orderby`. -/
def SharePointQueryableCollection.orderBy (q : SharePointQueryable) (orderBy : String)
    (ascending : Bool) : SharePointQueryable :=
  let query := (q._query.getKeys.filter (fun k => k == "$orderby")).map
    (fun k => (q._query.get k).getD "")
  let query := query ++ [orderBy ++ " " ++ if ascending then "asc" else "desc"]
  { q with _query := q._query.add "$orderby" (String.intercalate "," query) }

/-- `skip` (`sharepointqueryable.ts` lines 244-247). -/
def SharePointQueryableCollection.skip (q : SharePointQueryable) (skip : Nat) :
    SharePointQueryable :=
  { q with _query := q._query.add "$skip" (toString skip) }

/-- `top` (`sharepointqueryable.ts` lines 254-257). -/
def SharePointQueryableCollection.top (q : SharePointQueryable) (top : Nat) :
    SharePointQueryable :=
  { q with _query := q._query.add "$top" (toString top) }

/-- `select` on single instances (`sharepointqueryable.ts` lines 272-277): a
no-op when no field is supplied. -/
def SharePointQueryableInstance.select (q : SharePointQueryable) (selects : List String) :
    SharePointQueryable :=
  if selects.length > 0 then
    { q with _query := q._query.add "$select" (String.intercalate "," selects) }
  else q

/-- `expand` on single instances (`sharepointqueryable.ts` lines 284-289): a
no-op when no field is supplied. -/
def SharePointQueryableInstance.expand (q : SharePointQueryable) (expands : List String) :
    SharePointQueryable :=
  if expands.length > 0 then
    { q with _query := q._query.add "$expand" (String.intercalate "," expands) }
  else q

/-- Concrete node whose URL embeds an aliased parameter and whose accumulator
holds one entry (the serialization example of the spec). -/
def exAliasNode : SharePointQueryable :=
  { SharePointQueryable.fresh with
    _url := "items(\x27!@p1::Some long value\x27)",
    _query := Dictionary.empty.add "$select" "Title,Id" }

/-- Concrete collection node with a plain URL. -/
def itemsNode : SharePointQueryable :=
  { SharePointQueryable.fresh with _url := "items" }

/-- Concrete node that already carries a `$orderby` clause. -/
def ordSeed : SharePointQueryable :=
  { SharePointQueryable.fresh with
    _url := "items",
    _query := Dictionary.empty.add "$orderby" "Title asc" }

/-- Concrete node addressing a different host through an `@target` entry. -/
def targNode : SharePointQueryable :=
  { SharePointQueryable.fresh with
    _url := "sites/dev/web", _parentUrl := "sites/dev",
    _query := Dictionary.empty.add "@target" "https://other.example" }

/-- Concrete batch-associated node with caching requested. -/
def batchNode : SharePointQueryable :=
  { SharePointQueryable.fresh with
    _url := "items", _useCaching := true,
    _batch := some { bid := 1, nextTok := 5 } }

/-- Concrete absolute-URL resolver used by witnesses. -/
def resolvHost : String → String := fun s => "https://h.example/" ++ s

/-- Concrete caller-supplied request options. -/
def callerOpts : Dictionary := (Dictionary.empty.add "credentials" "omit").add "h" "1"

/-- Concrete node-level option overrides. -/
def nodeOpts : Dictionary := Dictionary.empty.add "credentials" "include"

/-- Concrete node carrying option overrides. -/
def nodeWithOpts : SharePointQueryable :=
  { SharePointQueryable.fresh with _url := "items", _options := nodeOpts }

theorem intercalate_one (s a : String) : String.intercalate s [a] = a := rfl

theorem intercalate_two (s a b : String) : String.intercalate s [a, b] = a ++ s ++ b := rfl

theorem addEntries_find_self (l : List (String × String)) (k v : String) :
    ((addEntries l k v).find? (fun kv => kv.1 == k)) = some (k, v) := by
  induction l with
  | nil => simp [addEntries, List.find?]
  | cons kv t ih =>
    by_cases h : kv.1 = k
    · simp [addEntries, h, List.find?]
    · simp [addEntries, h, List.find?, ih]


theorem addEntries_find_ne (l : List (String × String)) (k v kx : String) (h : kx ≠ k) :
    ((addEntries l k v).find? (fun kv => kv.1 == kx)) = l.find? (fun kv => kv.1 == kx) := by
  have hk : k ≠ kx := Ne.symm h
  induction l with
  | nil => simp [addEntries, hk]
  | cons kv t ih =>
    by_cases hkv : kv.1 = k
    · simp [addEntries, hkv, hk]
    · by_cases hx : kv.1 = kx
      · simp [addEntries, hkv, hx, h]
      · simp [addEntries, hkv, hx, ih]

theorem Dictionary.get_add_self (d : Dictionary) (k v : String) :
    (d.add k v).get k = some v := by
  simp [Dictionary.get, Dictionary.add, addEntries_find_self]

theorem Dictionary.get_add_ne (d : Dictionary) (k v kx : String) (h : kx ≠ k) :
    (d.add k v).get kx = d.get kx := by
  simp [Dictionary.get, Dictionary.add, addEntries_find_ne _ _ _ _ h]

theorem get_foldl_add (l : List (String × String)) (a : Dictionary) (k : String)
    (h : (l.map Prod.fst).Nodup) :
    Dictionary.get (l.foldl (fun d kv => d.add kv.1 kv.2) a) k =
      match l.find? (fun kv => kv.1 == k) with
      | some kv => some kv.2
      | none => a.get k := by
  induction l generalizing a with
  | nil => simp
  | cons kv t ih =>
    simp only [List.map_cons, List.nodup_cons] at h
    obtain ⟨hnotin, hnd⟩ := h
    by_cases hk : kv.1 = k
    · have ht : t.find? (fun p => p.1 == k) = none := by
        rw [List.find?_eq_none]
        intro p hp
        simp only [beq_iff_eq]
        intro e
        exact hnotin (by rw [hk, ← e]; exact List.mem_map_of_mem _ hp)
      rw [List.foldl_cons, ih _ hnd, ht]
      subst hk
      simp [Dictionary.get_add_self]
    · rw [List.foldl_cons, ih _ hnd]
      have hgo : (a.add kv.1 kv.2).get k = a.get k :=
        Dictionary.get_add_ne _ _ _ _ (Ne.symm hk)
      cases hft : t.find? (fun p => p.1 == k) <;> simp [hft, hgo, hk]

theorem Dictionary.get_merge (d other : Dictionary) (k : String)
    (h : (other.entries.map Prod.fst).Nodup) :
    (d.merge other).get k =
      match other.get k with
      | some v => some v
      | none => d.get k := by
  have hf := get_foldl_add other.entries d k h
  rw [Dictionary.merge, hf]
  simp only [Dictionary.get]
  cases hft : other.entries.find? (fun kv => kv.1 == k) <;> simp [hft]

theorem filter_keys_eq (l : List (String × String)) (K : String)
    (h : (l.map Prod.fst).Nodup) :
    (l.map Prod.fst).filter (fun k => k == K) =
      match l.find? (fun kv => kv.1 == K) with
      | some _ => [K]
      | none => [] := by
  induction l with
  | nil => simp
  | cons kv t ih =>
    simp only [List.map_cons, List.nodup_cons] at h
    obtain ⟨hnotin, hnd⟩ := h
    by_cases hk : kv.1 = K
    · have ht : (t.map Prod.fst).filter (fun k => k == K) = [] := by
        rw [List.filter_eq_nil_iff]
        intro x hx
        simp only [beq_iff_eq]
        intro e
        exact hnotin (by rw [hk, ← e]; exact hx)
      simp [hk, ht]
    · simp [hk, ih hnd]

/-- C2: for every base string that is an absolute URL or contains no path
separator at all, the constructor keeps the base as `parentUrl` and sets
`url` to `combine(base, path)` (`sharepointqueryable.ts` lines 44-46). -/
theorem ofString_absolute_or_flat (b : String) (p : Option String)
    (h : isUrlAbsolute b = true ∨ lastIndexOfChar b '/' < 0) :
    (SharePointQueryable.ofString b p)._parentUrl = b ∧
    (SharePointQueryable.ofString b p)._url = combinePaths b p := by
  rcases h with h | h
  · simp [SharePointQueryable.ofString, h]
  · simp [SharePointQueryable.ofString, h]

/-- C1: for every non-absolute base containing a path separator, the
constructor compares the position of the last `/` with the position of the
last `(`: when the separator comes later, `parentUrl` is the part of the base
before the last separator and `url` combines `parentUrl` with the trailing
part taken from the last separator (normalized by `combine`) and the path;
otherwise `parentUrl` is the part before the last `(` and `url` is
`combine(base, path)` with the indexer kept (`sharepointqueryable.ts` lines
47-58). -/
theorem ofString_relative_split (b : String) (p : Option String)
    (habs : isUrlAbsolute b = false) (hsl : 0 ≤ lastIndexOfChar b '/') :
    (lastIndexOfChar b '(' < lastIndexOfChar b '/' →
      (SharePointQueryable.ofString b p)._parentUrl =
        strTake b (lastIndexOfChar b '/').toNat ∧
      (SharePointQueryable.ofString b p)._url =
        combinePaths (strTake b (lastIndexOfChar b '/').toNat)
          (some (combinePaths (strDrop b (lastIndexOfChar b '/').toNat) p))) ∧
    (lastIndexOfChar b '/' ≤ lastIndexOfChar b '(' →
      (SharePointQueryable.ofString b p)._parentUrl =
        strTake b (lastIndexOfChar b '(').toNat ∧
      (SharePointQueryable.ofString b p)._url = combinePaths b p) := by
  have h0 : ¬ lastIndexOfChar b '/' < 0 := not_lt.mpr hsl
  constructor
  · intro hlt
    simp [SharePointQueryable.ofString, habs, h0, hlt]
  · intro hle
    have h1 : ¬ lastIndexOfChar b '(' < lastIndexOfChar b '/' := not_lt.mpr hle
    simp [SharePointQueryable.ofString, habs, h0, h1]

/-- C3: `toUrlAndQuery` rewrites every aliased token of the composed URL into
its bare label while registering the label with the single-quoted literal in
the discovered-parameter dictionary, merges the node's accumulator entries
over the discovered aliases (accumulator entries win on key collision), and
appends the `&`-joined `key=value` pairs after a single `?` only when at
least one pair exists, in first-seen key order (`sharepointqueryable.ts`
lines 82-100). -/
theorem toUrlAndQuery_alias_rewrite (q : SharePointQueryable)
    (hq : (q._query.entries.map Prod.fst).Nodup) :
    (q.toUrlAndQuery =
      (let scanned := scanAliases q._url.toList.length q._url.toList
       let aliasedParams := scanned.2.foldl (fun d kv => d.add kv.1 kv.2) Dictionary.empty
       let merged := aliasedParams.merge q._query
       if merged.count > 0 then
         String.mk scanned.1 ++ "?" ++
           String.intercalate "&"
             (merged.getKeys.map (fun k => k ++ "=" ++ (merged.get k).getD "null"))
       else String.mk scanned.1)) ∧
    (∀ k,
      (((scanAliases q._url.toList.length q._url.toList).2.foldl
          (fun d kv => d.add kv.1 kv.2) Dictionary.empty).merge q._query).get k =
        match q._query.get k with
        | some v => some v
        | none =>
          ((scanAliases q._url.toList.length q._url.toList).2.foldl
            (fun d kv => d.add kv.1 kv.2) Dictionary.empty).get k) :=
  ⟨rfl, fun _ => Dictionary.get_merge _ _ _ hq⟩

/-- C4: a node holding an `@target` query entry hands the entry, with its
value unchanged, to every node derived by `clone`, by `getParent` and by the
`as` cast (`sharepointqueryable.ts` lines 61-64, 73-76, 107-124, 132-143). -/
theorem target_propagates_derivations (q : SharePointQueryable) (t : String)
    (h : q._query.get "@target" = some t) (ap pth : Option String) (ib : Bool)
    (bu : String) (bt : Option SPBatch) :
    (q.clone ap ib)._query.get "@target" = some t ∧
    (q.getParent bu pth bt)._query.get "@target" = some t ∧
    q.asCast._query.get "@target" = some t := by
  refine ⟨?_, ?_, ?_⟩
  · simp only [SharePointQueryable.clone, SharePointQueryable.ofQueryable,
      SharePointQueryable.extendNode, SharePointQueryable.configure,
      SharePointQueryable.inBatch, h]
    split <;> simp [Dictionary.get_add_self]
  · simp only [SharePointQueryable.getParent, SharePointQueryable.configure,
      SharePointQueryable.inBatch, h]
    cases bt <;> simp [Dictionary.get_add_self]
  · simp [SharePointQueryable.asCast, h]

/-- C5: `toRequestContext` registers the batch dependency exactly once and
before the absolute URL is resolved (the event list starts with the
registration), and the descriptor's release callback is the one the
registration returned; an unbatched node gets the no-op release callback
(`sharepointqueryable.ts` lines 159-168). -/
theorem build_batch_dependency_order (q : SharePointQueryable) (verb : String)
    (options : Dictionary) (parser pipeline : Nat) (resolver : String → String)
    (guid : String) :
    (∀ b, q._batch = some b →
      (q.toRequestContext verb options parser pipeline resolver guid).1 =
        [BuildEv.register b.nextTok, BuildEv.resolve (resolver q.toUrlAndQuery)] ∧
      (q.toRequestContext verb options parser pipeline resolver guid).2.batchDependency =
        Release.fromBatch b.nextTok) ∧
    (q._batch = none →
      (q.toRequestContext verb options parser pipeline resolver guid).1 =
        [BuildEv.resolve (resolver q.toUrlAndQuery)] ∧
      (q.toRequestContext verb options parser pipeline resolver guid).2.batchDependency =
        Release.noop) := by
  constructor
  · intro b hb
    simp [SharePointQueryable.toRequestContext, hb]
  · intro hb
    simp [SharePointQueryable.toRequestContext, hb]

/-- C6: the descriptor's cache-eligibility flag is true exactly when the verb
equals `GET` case-insensitively and the node's use-caching flag is set; a
`POST` build is never cache-eligible (`sharepointqueryable.ts` line 172). -/
theorem build_cache_eligibility (q : SharePointQueryable) (verb : String)
    (options : Dictionary) (parser pipeline : Nat) (resolver : String → String)
    (guid : String) :
    ((q.toRequestContext verb options parser pipeline resolver guid).2.isCached = true ↔
      (lowerAscii verb = "get" ∧ q._useCaching = true)) ∧
    (q.toRequestContext "POST" options parser pipeline resolver guid).2.isCached = false := by
  constructor
  · simp [SharePointQueryable.toRequestContext, isGetVerb]
  · have hp : isGetVerb "POST" = false := by decide
    simp [SharePointQueryable.toRequestContext, hp]

/-- C7: each `orderBy` call appends its `"<field> asc|desc"` clause to any
existing `$orderby` value, joined by a comma, instead of replacing it; two
successive calls on a plain collection node serialize as
`$orderby=Title asc,Created desc` (`sharepointqueryable.ts` lines 232-237). -/
theorem orderBy_appends_clause (q : SharePointQueryable) (f : String) (asc : Bool)
    (hq : (q._query.entries.map Prod.fst).Nodup) :
    ((SharePointQueryableCollection.orderBy q f asc)._query.get "$orderby" =
      some ((match q._query.get "$orderby" with
             | some old => old ++ ","
             | none => "") ++ (f ++ " " ++ if asc then "asc" else "desc"))) ∧
    (SharePointQueryableCollection.orderBy
        (SharePointQueryableCollection.orderBy itemsNode "Title" true)
        "Created" false).toUrlAndQuery = "items?$orderby=Title asc,Created desc" := by
  constructor
  · have hf := filter_keys_eq q._query.entries "$orderby" hq
    cases hfind : q._query.entries.find? (fun kv => kv.1 == "$orderby") with
    | none =>
      have hget : q._query.get "$orderby" = none := by
        simp [Dictionary.get, hfind]
      rw [hfind] at hf
      simp [SharePointQueryableCollection.orderBy, Dictionary.getKeys, hf, hget,
        Dictionary.get_add_self, intercalate_one]
    | some kv =>
      have hget : q._query.get "$orderby" = some kv.2 := by
        simp [Dictionary.get, hfind]
      rw [hfind] at hf
      simp [SharePointQueryableCollection.orderBy, Dictionary.getKeys, hf, hget,
        Dictionary.get_add_self, intercalate_two, String.append_assoc]
  · decide

/-- C8: the descriptor's options are the caller-supplied options overlaid with
the node's accumulated options, node values winning on key collision and
caller values surviving elsewhere (`sharepointqueryable.ts` line 163). -/
theorem build_options_overlay (q : SharePointQueryable) (verb : String)
    (options : Dictionary) (parser pipeline : Nat) (resolver : String → String)
    (guid : String) (hq : (q._options.entries.map Prod.fst).Nodup) :
    ((q.toRequestContext verb options parser pipeline resolver guid).2.options =
      options.merge q._options) ∧
    (∀ k v, q._options.get k = some v →
      (q.toRequestContext verb options parser pipeline resolver guid).2.options.get k =
        some v) ∧
    (∀ k, q._options.get k = none →
      (q.toRequestContext verb options parser pipeline resolver guid).2.options.get k =
        options.get k) := by
  refine ⟨rfl, ?_, ?_⟩
  · intro k v hv
    have hm := Dictionary.get_merge options q._options k hq
    show (options.merge q._options).get k = some v
    rw [hm, hv]
  · intro k hv
    have hm := Dictionary.get_merge options q._options k hq
    show (options.merge q._options).get k = options.get k
    rw [hm, hv]

/-- C9: `toUrlAndQuery` leaves the node's accumulator unchanged (the source
writes only to a local dictionary), so two calls with no intervening fluent
mutation return identical strings (`sharepointqueryable.ts` lines 82-100). -/
theorem toUrlAndQuery_idempotent_pure (q : SharePointQueryable) :
    q.toUrlAndQueryRun.2._query = q._query ∧
    q.toUrlAndQueryRun.2.toUrlAndQueryRun.1 = q.toUrlAndQueryRun.1 :=
  ⟨rfl, rfl⟩

/-- C10: calling `select` or `expand` with no arguments leaves the node
completely unchanged, on collection-shaped and on single-instance resources
(`sharepointqueryable.ts` lines 207-212, 219-224, 272-277, 284-289). -/
theorem select_expand_empty_noop (q : SharePointQueryable) :
    SharePointQueryableCollection.select q [] = q ∧
    SharePointQueryableCollection.expand q [] = q ∧
    SharePointQueryableInstance.select q [] = q ∧
    SharePointQueryableInstance.expand q [] = q :=
  ⟨rfl, rfl, rfl, rfl⟩

/-- Witness for C1: both constructor branches evaluated on the spec's
examples, via `ofString_relative_split`. -/
theorem ofString_relative_split_witness :
    isUrlAbsolute "web/lists/items(19)/fields" = false ∧
    (0 : Int) ≤ lastIndexOfChar "web/lists/items(19)/fields" '/' ∧
    (SharePointQueryable.ofString "web/lists/items(19)/fields" none)._parentUrl =
      "web/lists/items(19)" ∧
    (SharePointQueryable.ofString "web/lists/items(19)/fields" none)._url =
      "web/lists/items(19)/fields" ∧
    (SharePointQueryable.ofString "web/lists/items(19)" (some "versions"))._parentUrl =
      "web/lists/items" ∧
    (SharePointQueryable.ofString "web/lists/items(19)" (some "versions"))._url =
      "web/lists/items(19)/versions" := by
  have h1 := (ofString_relative_split "web/lists/items(19)/fields" none (by decide)
    (by decide)).1 (by decide)
  have h2 := (ofString_relative_split "web/lists/items(19)" (some "versions") (by decide)
    (by decide)).2 (by decide)
  exact ⟨by decide, by decide, h1.1.trans (by decide), h1.2.trans (by decide),
    h2.1.trans (by decide), h2.2.trans (by decide)⟩

/-- Witness for C2: an absolute base evaluated through
`ofString_absolute_or_flat`. -/
theorem ofString_absolute_or_flat_witness :
    (isUrlAbsolute "https://x.example/web" = true ∨
      lastIndexOfChar "https://x.example/web" '/' < 0) ∧
    (SharePointQueryable.ofString "https://x.example/web" (some "lists"))._parentUrl =
      "https://x.example/web" ∧
    (SharePointQueryable.ofString "https://x.example/web" (some "lists"))._url =
      "https://x.example/web/lists" := by
  have h := ofString_absolute_or_flat "https://x.example/web" (some "lists")
    (Or.inl (by decide))
  exact ⟨Or.inl (by decide), h.1, h.2.trans (by decide)⟩

/-- Witness for C3: the spec's serialization example evaluated through
`toUrlAndQuery_alias_rewrite`. -/
theorem toUrlAndQuery_alias_rewrite_witness :
    (exAliasNode._query.entries.map Prod.fst).Nodup ∧
    exAliasNode.toUrlAndQuery =
      "items(@p1)?@p1=\x27Some long value\x27&$select=Title,Id" := by
  have hnd : (exAliasNode._query.entries.map Prod.fst).Nodup := by decide
  exact ⟨hnd, ((toUrlAndQuery_alias_rewrite exAliasNode hnd).1).trans (by decide)⟩

/-- Witness for C4: the `@target` entry of a concrete node survives `clone`,
`getParent` and the `as` cast, via `target_propagates_derivations`. -/
theorem target_propagates_derivations_witness :
    (targNode.clone (some "lists") true)._query.get "@target" =
      some "https://other.example" ∧
    (targNode.getParent "sites/dev" none none)._query.get "@target" =
      some "https://other.example" ∧
    targNode.asCast._query.get "@target" = some "https://other.example" :=
  target_propagates_derivations targNode "https://other.example" (by decide)
    (some "lists") none true "sites/dev" none

/-- Witness for C5: a batched and an unbatched build evaluated through
`build_batch_dependency_order`. -/
theorem build_batch_dependency_order_witness :
    (batchNode.toRequestContext "GET" Dictionary.empty 0 0 resolvHost "id").1 =
      [BuildEv.register 5, BuildEv.resolve "https://h.example/items"] ∧
    (batchNode.toRequestContext "GET" Dictionary.empty 0 0 resolvHost
      "id").2.batchDependency = Release.fromBatch 5 ∧
    (itemsNode.toRequestContext "GET" Dictionary.empty 0 0 resolvHost "id").1 =
      [BuildEv.resolve "https://h.example/items"] ∧
    (itemsNode.toRequestContext "GET" Dictionary.empty 0 0 resolvHost
      "id").2.batchDependency = Release.noop := by
  have hb := (build_batch_dependency_order batchNode "GET" Dictionary.empty 0 0 resolvHost
    "id").1 { bid := 1, nextTok := 5 } rfl
  have hn := (build_batch_dependency_order itemsNode "GET" Dictionary.empty 0 0 resolvHost
    "id").2 rfl
  exact ⟨hb.1.trans (by decide), hb.2, hn.1.trans (by decide), hn.2⟩

/-- Witness for C7: appending a second sort clause to a node that already
carries one, via `orderBy_appends_clause`. -/
theorem orderBy_appends_clause_witness :
    (ordSeed._query.entries.map Prod.fst).Nodup ∧
    (SharePointQueryableCollection.orderBy ordSeed "Created" false)._query.get
      "$orderby" = some "Title asc,Created desc" := by
  have hnd : (ordSeed._query.entries.map Prod.fst).Nodup := by decide
  exact ⟨hnd, ((orderBy_appends_clause ordSeed "Created" false hnd).1).trans (by decide)⟩

/-- Witness for C8: a colliding and a non-colliding option key evaluated
through `build_options_overlay`. -/
theorem build_options_overlay_witness :
    (nodeWithOpts._options.entries.map Prod.fst).Nodup ∧
    (nodeWithOpts.toRequestContext "POST" callerOpts 0 0 resolvHost "id").2.options.get
      "credentials" = some "include" ∧
    (nodeWithOpts.toRequestContext "POST" callerOpts 0 0 resolvHost "id").2.options.get
      "h" = some "1" := by
  have hnd : (nodeWithOpts._options.entries.map Prod.fst).Nodup := by decide
  have h := build_options_overlay nodeWithOpts "POST" callerOpts 0 0 resolvHost "id" hnd
  exact ⟨hnd, h.2.1 "credentials" "include" (by decide),
    (h.2.2 "h" (by decide)).trans (by decide)⟩
